import Mathlib

/-!
Verification of the iterative Brick SPARQL agent (`brick_agent.py`, `brick_utils.py`).

The development shallowly embeds the core loop and its helpers:
  * the query-repair pass `_validate_and_fix_sparql` (four regex-based rewrites),
  * balanced-parenthesis argument extraction `_extract_balanced_parens`
    and the `Action: name(arg)` parsing in `controller`,
  * `execute_sparql` from `brick_utils.py` (prefix injection, row conversion,
    status computation, error classification),
  * the data model (`BrickAction`, `BrickSparqlQuery`, `AgentState`) and the
    driver loop `BrickAgent.run` with duplicate detection and the step budget.

External collaborators (the rdflib graph, the LLM, pandas rendering) are
modelled as explicit function parameters; calls that can raise in Python are
modelled as `Except String`.  Machine strings are `String`/`List Char`;
Python's `\s`, `\w`, `\d` character classes and `str.upper`/`str.lower` are
modelled on the ASCII fragment (plus the common Unicode whitespace code
points), which covers every string the program manipulates here.
-/

namespace BrickSpec

/-- Python whitespace (`str.isspace`, and `\s` of the `re` module):
ASCII whitespace plus the Unicode whitespace code points. -/
def isPySpace (c : Char) : Bool :=
  let n := c.toNat
  (9 ≤ n && n ≤ 13) || n == 32 || (28 ≤ n && n ≤ 31) || n == 0x85 || n == 0xa0 ||
  n == 0x1680 || (0x2000 ≤ n && n ≤ 0x200a) || n == 0x2028 || n == 0x2029 ||
  n == 0x202f || n == 0x205f || n == 0x3000

/-- ASCII fragment of the `re` module's `\w` class (letters, digits, underscore). -/
def isWordChar (c : Char) : Bool :=
  let n := c.toNat
  (65 ≤ n && n ≤ 90) || (97 ≤ n && n ≤ 122) || (48 ≤ n && n ≤ 57) || n == 95

/-- ASCII fragment of the `re` module's `\d` class. -/
def isDigitChar (c : Char) : Bool :=
  let n := c.toNat
  48 ≤ n && n ≤ 57

/-- ASCII `str.upper` on one character. -/
def pyUpperChar (c : Char) : Char :=
  let n := c.toNat
  if 97 ≤ n && n ≤ 122 then Char.ofNat (n - 32) else c

/-- ASCII `str.lower` on one character. -/
def pyLowerChar (c : Char) : Char :=
  let n := c.toNat
  if 65 ≤ n && n ≤ 90 then Char.ofNat (n + 32) else c

/-- Case-insensitive character comparison, as `re.IGNORECASE` compares. -/
def charCI (a b : Char) : Bool :=
  pyLowerChar a == pyLowerChar b

/-- `str.strip()` on the character list: drop leading and trailing whitespace. -/
def stripData (l : List Char) : List Char :=
  ((l.dropWhile isPySpace).reverse.dropWhile isPySpace).reverse

/-- `str.strip()` as a `String` operation. -/
def pyStrip (s : String) : String :=
  ⟨stripData s.data⟩

/-- `str.upper()` (ASCII fragment) on a character list. -/
def pyUpperData (l : List Char) : List Char :=
  l.map pyUpperChar

/-- `str.lower()` (ASCII fragment) on a character list. -/
def pyLowerData (l : List Char) : List Char :=
  l.map pyLowerChar

/-- Does `n` occur at the head of `l` (verbatim)?  Used for Python's `in`. -/
def leadsWith : List Char → List Char → Bool
  | [], _ => true
  | _ :: _, [] => false
  | a :: n', b :: l' => a == b && leadsWith n' l'

/-- Does `n` occur at the head of `l`, compared case-insensitively?
Returns the rest of `l` after the matched literal. -/
def leadsWithCI : List Char → List Char → Option (List Char)
  | [], l => some l
  | _ :: _, [] => none
  | a :: n', b :: l' => if charCI a b then leadsWithCI n' l' else none

/-- Python's substring test `n in l`. -/
def containsSub (n : List Char) : List Char → Bool
  | [] => n.isEmpty
  | b :: l' => leadsWith n (b :: l') || containsSub n l'

/-! ### The query-repair pass `_validate_and_fix_sparql`

Fix 0 is `re.sub(r'PREFIX\s+(\w+):\s+(https?://[^\s<>]+)', r'PREFIX \1: <\2>', fixed, flags=re.IGNORECASE)`.
Fix 1 is `re.sub(r'ORDER\s+BY\s+(DESC|ASC)\s*\(\s*\?(\w+)\s*(?!\))', r'ORDER BY \1(?\2)', fixed, flags=re.IGNORECASE)`.
Fix 2 appends `' LIMIT 1'` when `ORDER\s+BY\s+DESC` occurs and `LIMIT\s+\d+` does not.
Fix 3 appends `' LIMIT 10'` when `LIMIT\s+\d+` still does not occur.

Each `re.sub` is embedded as a left-to-right scan that attempts the pattern at
every position, replaces the leftmost match and continues after it, exactly as
`re.sub` does.  Wherever consecutive pattern pieces draw from disjoint
character sets the match is computed by maximal munch; the one genuinely
backtracking spot — the greedy `(\w+)\s*` against the trailing negative
lookahead `(?!\))` in fix 1 — is resolved the way the Python engine resolves
it: prefer the longest `\w+` and the longest `\s*`, then give back one
whitespace character, then one word character, before failing. -/

/-- `List.span` for this development (longest prefix satisfying `p`, and rest). -/
def spanTake (p : Char → Bool) : List Char → List Char × List Char
  | [] => ([], [])
  | c :: l => if p c then
      let r := spanTake p l
      (c :: r.1, r.2)
    else ([], c :: l)

/-- Attempt the fix-0 pattern `PREFIX\s+(\w+):\s+(https?://[^\s<>]+)`
(case-insensitively) at the head of `l`.  On success, return the replacement
text `PREFIX \1: <\2>` and the remainder of `l` after the match. -/
def matchP0 (l : List Char) : Option (List Char × List Char) :=
  match leadsWithCI "PREFIX".data l with
  | none => none
  | some r1 =>
    let sp1 := spanTake isPySpace r1
    if sp1.1.isEmpty then none else
    let nm := spanTake isWordChar sp1.2
    if nm.1.isEmpty then none else
    match nm.2 with
    | ':' :: r2 =>
      let sp2 := spanTake isPySpace r2
      if sp2.1.isEmpty then none else
      -- scheme: `https?://`, case-insensitive, greedy on the optional `s`
      let scheme : Option (List Char × List Char) :=
        match leadsWithCI "HTTP".data sp2.2 with
        | none => none
        | some r3 =>
          match r3 with
          | c :: r4 =>
            if charCI c 'S' then
              match leadsWithCI "://".data r4 with
              | some r5 => some (sp2.2.take 8, r5)
              | none =>
                match leadsWithCI "://".data r3 with
                | some r5 => some (sp2.2.take 7, r5)
                | none => none
            else
              match leadsWithCI "://".data r3 with
              | some r5 => some (sp2.2.take 7, r5)
              | none => none
          | [] => none
      match scheme with
      | none => none
      | some (sch, r6) =>
        let body := spanTake (fun c => !(isPySpace c) && c != '<' && c != '>') r6
        if body.1.isEmpty then none else
        some ("PREFIX ".data ++ nm.1 ++ ": <".data ++ sch ++ body.1 ++ ">".data, body.2)
    | _ => none

/-- One `re.sub` scan: try `m` at every position, replace the leftmost match
and continue after it.  `fuel` bounds the recursion; every match consumes at
least one character, so `fuel = l.length` reproduces the unfueled scan. -/
def reSubGo (m : List Char → Option (List Char × List Char)) :
    Nat → List Char → List Char
  | 0, l => l
  | _ + 1, [] => []
  | fuel + 1, c :: l =>
    match m (c :: l) with
    | some (rep, rest) => rep ++ reSubGo m fuel rest
    | none => c :: reSubGo m fuel l

/-- Fix 0 of `_validate_and_fix_sparql` (missing angle brackets in PREFIX). -/
def reSubP0 (l : List Char) : List Char :=
  reSubGo matchP0 l.length l

/-- Attempt the fix-1 pattern `ORDER\s+BY\s+(DESC|ASC)\s*\(\s*\?(\w+)\s*(?!\))`
(case-insensitively) at the head of `l`, resolving the greedy quantifiers
against the negative lookahead the way Python's engine does. -/
def matchP1 (l : List Char) : Option (List Char × List Char) :=
  match leadsWithCI "ORDER".data l with
  | none => none
  | some r1 =>
    let sp1 := spanTake isPySpace r1
    if sp1.1.isEmpty then none else
    match leadsWithCI "BY".data sp1.2 with
    | none => none
    | some r2 =>
      let sp2 := spanTake isPySpace r2
      if sp2.1.isEmpty then none else
      -- alternation (DESC|ASC); the captured text keeps its original case
      let alt : Option (List Char × List Char) :=
        match leadsWithCI "DESC".data sp2.2 with
        | some r3 => some (sp2.2.take 4, r3)
        | none =>
          match leadsWithCI "ASC".data sp2.2 with
          | some r3 => some (sp2.2.take 3, r3)
          | none => none
      match alt with
      | none => none
      | some (g1, r3) =>
        let sp3 := spanTake isPySpace r3
        match sp3.2 with
        | '(' :: r4 =>
          let sp4 := spanTake isPySpace r4
          match sp4.2 with
          | '?' :: r5 =>
            let w := spanTake isWordChar r5
            if w.1.isEmpty then none else
            let rep := fun (g2 : List Char) =>
              "ORDER BY ".data ++ g1 ++ "(?".data ++ g2 ++ ")".data
            let sp5 := spanTake isPySpace w.2
            if sp5.1.isEmpty then
              match w.2 with
              | ')' :: _ =>
                -- lookahead fails after the full `\w+`; give back one word char
                if w.1.length ≥ 2 then
                  some (rep (w.1.take (w.1.length - 1)),
                        w.1.drop (w.1.length - 1) ++ w.2)
                else none
              | _ => some (rep w.1, w.2)
            else
              match sp5.2 with
              | ')' :: _ =>
                -- lookahead fails after all the whitespace; give back one space
                some (rep w.1, sp5.1.drop (sp5.1.length - 1) ++ sp5.2)
              | _ => some (rep w.1, sp5.2)
          | _ => none
        | _ => none

/-- Fix 1 of `_validate_and_fix_sparql` (unclosed `ORDER BY DESC/ASC` paren). -/
def reSubP1 (l : List Char) : List Char :=
  reSubGo matchP1 l.length l

/-- Does the fix-2 pattern `ORDER\s+BY\s+DESC` match at the head of `l`? -/
def matchAtP2 (l : List Char) : Bool :=
  match leadsWithCI "ORDER".data l with
  | none => false
  | some r1 =>
    let sp1 := spanTake isPySpace r1
    if sp1.1.isEmpty then false else
    match leadsWithCI "BY".data sp1.2 with
    | none => false
    | some r2 =>
      let sp2 := spanTake isPySpace r2
      if sp2.1.isEmpty then false else
      (leadsWithCI "DESC".data sp2.2).isSome

/-- `re.search(r'ORDER\s+BY\s+DESC', l, re.IGNORECASE)` as a Bool. -/
def searchP2 : List Char → Bool
  | [] => false
  | c :: l => matchAtP2 (c :: l) || searchP2 l

/-- Does the fix-3 pattern `LIMIT\s+\d+` match at the head of `l`? -/
def matchAtP3 (l : List Char) : Bool :=
  match leadsWithCI "LIMIT".data l with
  | none => false
  | some r1 =>
    let sp1 := spanTake isPySpace r1
    if sp1.1.isEmpty then false else
    !(spanTake isDigitChar sp1.2).1.isEmpty

/-- `re.search(r'LIMIT\s+\d+', l, re.IGNORECASE)` as a Bool. -/
def searchP3 : List Char → Bool
  | [] => false
  | c :: l => matchAtP3 (c :: l) || searchP3 l

/-- Fix 2: append `' LIMIT 1'` when `ORDER BY DESC` occurs without a LIMIT. -/
def appendLimit1 (t : List Char) : List Char :=
  if searchP2 t && !searchP3 t then t ++ " LIMIT 1".data else t

/-- Fix 3: append `' LIMIT 10'` when there is still no LIMIT. -/
def appendLimit10 (t : List Char) : List Char :=
  if !searchP3 t then t ++ " LIMIT 10".data else t

/-- `BrickAgent._validate_and_fix_sparql` on the character list:
strip, fix 0, fix 1, then the two conditional LIMIT appends. -/
def fixSparqlData (l : List Char) : List Char :=
  appendLimit10 (appendLimit1 (reSubP1 (reSubP0 (stripData l))))

/-- `BrickAgent._validate_and_fix_sparql` (brick_agent.py, lines 291-341). -/
def validate_and_fix_sparql (s : String) : String :=
  ⟨fixSparqlData s.data⟩

/-- Fix 0 as a `String` operation (for stating fixed-point hypotheses). -/
def fix0Str (s : String) : String :=
  ⟨reSubP0 s.data⟩

/-- Fix 1 as a `String` operation (for stating fixed-point hypotheses). -/
def fix1Str (s : String) : String :=
  ⟨reSubP1 s.data⟩

/-- `re.search(r'ORDER\s+BY\s+DESC', ·, re.IGNORECASE)` on a `String`. -/
def hasOrderByDesc (s : String) : Bool :=
  searchP2 s.data

/-- `re.search(r'LIMIT\s+\d+', ·, re.IGNORECASE)` on a `String`. -/
def hasLimitClause (s : String) : Bool :=
  searchP3 s.data

/-! ### Balanced-parenthesis extraction and `Action: name(arg)` parsing -/

/-- The scan of `_extract_balanced_parens` after the leading `'('` has been
consumed: `depth` is the current nesting depth (at least 1).  Returns the
characters before the `')'` that brings the depth back to zero, or `none`
when the list ends first (unbalanced parentheses). -/
def scanParens : List Char → Nat → Option (List Char)
  | [], _ => none
  | c :: rest, depth =>
    if c = ')' then
      if depth = 1 then some []
      else (scanParens rest (depth - 1)).map (fun l => c :: l)
    else if c = '(' then (scanParens rest (depth + 1)).map (fun l => c :: l)
    else (scanParens rest depth).map (fun l => c :: l)

/-- `BrickAgent._extract_balanced_parens` (brick_agent.py, lines 343-367):
`none` unless the text starts with `'('`; otherwise the content between the
first `'('` and its matching `')'`, or `none` if unbalanced. -/
def extract_balanced_parens (t : String) : Option String :=
  match t.data with
  | '(' :: rest => (scanParens rest 1).map (fun l => ⟨l⟩)
  | _ => none

/-- Attempt `Action:\s*(\w+)\s*\(` (case-sensitive, as in `controller`) at the
head of `l`; on success return the suffix of `l` starting at the `'('`
(the position `action_name_match.end() - 1` of the source). -/
def matchActionHead (l : List Char) : Option (List Char) :=
  if leadsWith "Action:".data l then
    let r1 := l.drop "Action:".data.length
    let sp1 := spanTake isPySpace r1
    let w := spanTake isWordChar sp1.2
    if w.1.isEmpty then none else
    let sp2 := spanTake isPySpace w.2
    match sp2.2 with
    | '(' :: _ => some sp2.2
    | _ => none
  else none

/-- `re.search` scanning for the `Action:\s*(\w+)\s*\(` pattern: leftmost
occurrence wins. -/
def findActionStart : List Char → Option (List Char)
  | [] => none
  | c :: t =>
    match matchActionHead (c :: t) with
    | some r => some r
    | none => findActionStart t

/-- The argument-parsing pipeline of `BrickAgent.controller`
(brick_agent.py, lines 265-281): find the action call, extract the
balanced-parenthesis argument, and `strip()` it. -/
def parse_action_argument (output : String) : Option String :=
  match findActionStart output.data with
  | none => none
  | some r =>
    match extract_balanced_parens ⟨r⟩ with
    | none => none
    | some arg => some (pyStrip arg)

/-! ### `brick_utils.py`: execution status, prefixes, `execute_sparql` -/

/-- `SparqlExecutionStatus` (brick_utils.py, lines 30-36). -/
inductive SparqlExecutionStatus where
  | SUCCESS
  | EMPTY_RESULT
  | SYNTAX_ERROR
  | TIMED_OUT
  | OTHER_ERROR
  deriving DecidableEq, Repr

/-- The `.value` of each enum member. -/
def SparqlExecutionStatus.value : SparqlExecutionStatus → String
  | .SUCCESS => "success"
  | .EMPTY_RESULT => "empty_result"
  | .SYNTAX_ERROR => "syntax_error"
  | .TIMED_OUT => "timed_out"
  | .OTHER_ERROR => "other_error"

/-- `BRICK_PREFIXES` (brick_utils.py, lines 20-27), transcribed verbatim. -/
def BRICK_PREFIXES : String :=
  "\nPREFIX brick: <https://brickschema.org/schema/Brick#>\nPREFIX bldg: <bldg-59#>\nPREFIX ref: <https://brickschema.org/schema/Brick/ref#>\nPREFIX rdf: <http://www.w3.org/1999/02/22-rdf-syntax-ns#>\nPREFIX rdfs: <http://www.w3.org/2000/01/rdf-schema#>\nPREFIX xsd: <http://www.w3.org/2001/XMLSchema#>\n"

/-- One raw result row as rdflib yields it: per variable of `results.vars`,
an optionally bound value (already rendered by `str`). -/
abbrev RawRow := List (String × Option String)

/-- One converted row of `execute_sparql`: the Python dict
`{var: {"value": v}}`, with the constant `"value"` wrapper left implicit. -/
abbrev ResultRow := List (String × String)

/-- The prefix-injection step of `execute_sparql` (brick_utils.py,
lines 153-154): `if "PREFIX" not in query.upper(): query = BRICK_PREFIXES + query`. -/
def sentQuery (query : String) : String :=
  if containsSub "PREFIX".data (pyUpperData query.data) then query
  else BRICK_PREFIXES ++ query

/-- Row conversion of `execute_sparql` (brick_utils.py, lines 159-167):
drop unbound variables from each row, and drop rows that end up empty. -/
def convertRows (raw : List RawRow) : List ResultRow :=
  (raw.map (fun row => row.filterMap (fun p => p.2.map (fun v => (p.1, v))))).filter
    (fun r => !r.isEmpty)

/-- Error classification of `execute_sparql` (brick_utils.py, lines 175-182):
inspect the lowercased exception message. -/
def classifyError (e : String) : SparqlExecutionStatus :=
  if containsSub "syntax".data (pyLowerData e.data) ||
     containsSub "parse".data (pyLowerData e.data) then .SYNTAX_ERROR
  else if containsSub "timeout".data (pyLowerData e.data) then .TIMED_OUT
  else .OTHER_ERROR

/-- `execute_sparql` (brick_utils.py, lines 137-188), on the
`return_status=True` path used by the agent.  The graph store is the
explicit parameter `gq`; a Python exception from it is an `Except.error`. -/
def execute_sparql (gq : String → Except String (List RawRow)) (query : String) :
    List ResultRow × SparqlExecutionStatus :=
  match gq (sentQuery query) with
  | .ok raw =>
    let result_list := convertRows raw
    (result_list, if result_list.isEmpty then .EMPTY_RESULT else .SUCCESS)
  | .error e => ([], classifyError e)

/-! ### Data model: search hits, entity records, actions, queries -/

/-- `"\n".join(lines)`. -/
def joinNL : List String → String
  | [] => ""
  | [x] => x
  | x :: xs => x ++ "\n" ++ joinNL xs

/-- `", ".join(parts)`. -/
def joinComma : List String → String
  | [] => ""
  | [x] => x
  | x :: xs => x ++ ", " ++ joinComma xs

/-- One search hit as built by `search_brick` (brick_utils.py, lines 233-239):
the dict always carries all five keys, so the `.get` defaults of
`format_search_results` never fire. -/
structure SearchHit where
  id : String
  uri : String
  label : String
  type : String
  description : String
  deriving DecidableEq, Repr

/-- One value of an entity property as built by `get_brick_entity`
(brick_utils.py, lines 277-289): literal values carry a datatype, URI values
carry `"type": "uri"`; `format_entity_info` only inspects that flag. -/
structure PropValue where
  value : String
  isUri : Bool
  deriving DecidableEq, Repr

/-- The entity record of `get_brick_entity` (brick_utils.py, lines 296-301). -/
structure EntityInfo where
  entity : String
  types : List String
  properties : List (String × List PropValue)
  deriving DecidableEq, Repr

/-- `format_search_results` (brick_utils.py, lines 379-403). -/
def format_search_results (results : List SearchHit) : String :=
  if results.isEmpty then "No results found."
  else
    joinNL (results.foldr
      (fun item acc =>
        (item.label ++ " (" ++ item.id ++ "): " ++ item.description) ::
        (if item.type ≠ "" then ("  Type: " ++ item.type) :: acc else acc))
      [])

/-- `format_entity_info` (brick_utils.py, lines 406-430). -/
def format_entity_info (info : EntityInfo) : String :=
  let lines := ["Entity: " ++ info.entity]
  let lines := lines ++
    (if info.types.isEmpty then [] else ["Types: " ++ joinComma info.types])
  let lines := lines ++ ["\nProperties:"]
  let lines := lines ++ info.properties.foldr
    (fun p acc =>
      ("  " ++ p.1 ++ ":") ::
      (p.2.take 3).map (fun v =>
        if v.isUri then "    -> " ++ v.value else "    = " ++ v.value) ++ acc)
    []
  joinNL lines

/-- `BrickSparqlQuery` (brick_agent.py, lines 85-127). -/
structure BrickSparqlQuery where
  sparql : String
  execution_result : Option (List ResultRow) := none
  execution_status : Option SparqlExecutionStatus := none
  deriving DecidableEq, Repr

/-- `BrickSparqlQuery.execute` (brick_agent.py, lines 92-97), against the
graph store `gq`. -/
def BrickSparqlQuery.execute (gq : String → Except String (List RawRow))
    (q : BrickSparqlQuery) : BrickSparqlQuery :=
  let res := execute_sparql gq q.sparql
  { q with execution_result := some res.1, execution_status := some res.2 }

/-- `BrickSparqlQuery.has_results` (brick_agent.py, lines 99-101):
Python truthiness of `execution_result` (`None` and `[]` are falsy). -/
def BrickSparqlQuery.has_results (q : BrickSparqlQuery) : Bool :=
  match q.execution_result with
  | some (_ :: _) => true
  | _ => false

/-- `BrickSparqlQuery.results_as_table` (brick_agent.py, lines 103-127):
`"No results"` when the result list is falsy; otherwise the pandas
`DataFrame` rendering (including its 10-row truncation layout), which is
external-library formatting and is abstracted as the parameter `render`. -/
def BrickSparqlQuery.results_as_table (render : List ResultRow → String)
    (q : BrickSparqlQuery) : String :=
  match q.execution_result with
  | some (r :: rs) => render (r :: rs)
  | _ => "No results"

/-- The kind-specific `observation_raw` payload of an action. -/
inductive ObsPayload where
  | search (hits : List SearchHit)
  | entity (info : EntityInfo)
  | examples (ex : List (String × String × String))
  | sparql (q : BrickSparqlQuery)
  deriving DecidableEq, Repr

/-- `BrickAction` (brick_agent.py, lines 42-82). -/
structure BrickAction where
  thought : String
  action_name : String
  action_argument : String
  observation : Option String := none
  observation_raw : Option ObsPayload := none
  deriving DecidableEq, Repr

/-- `BrickAction.POSSIBLE_ACTIONS` (brick_agent.py, lines 54-60). -/
def POSSIBLE_ACTIONS : List String :=
  ["search_brick", "get_brick_entity", "get_property_examples", "execute_sparql", "stop"]

/-- Python truthiness of an optional string: `None` and `""` are falsy. -/
def pyTruthyStr : Option String → Bool
  | none => false
  | some s => !s.isEmpty

/-- `BrickAction.to_string` (brick_agent.py, lines 66-72). -/
def BrickAction.to_string (a : BrickAction) (include_observation : Bool := true) : String :=
  let result := "Thought: " ++ a.thought ++ "\n"
  let result := result ++ "Action: " ++ a.action_name ++ "(" ++ a.action_argument ++ ")\n"
  if include_observation && pyTruthyStr a.observation then
    result ++ "Observation: " ++ a.observation.getD "" ++ "\n"
  else result

/-- `BrickAction.__eq__` (brick_agent.py, lines 74-79): only the pair
`(action_name, action_argument)` matters. -/
def actionEq (a b : BrickAction) : Bool :=
  a.action_name == b.action_name && a.action_argument == b.action_argument

/-! ### `AgentState` and the driver loop `BrickAgent.run` -/

/-- `AgentState` (brick_agent.py, lines 130-137). -/
structure AgentState where
  question : String
  actions : List BrickAction := []
  generated_sparqls : List BrickSparqlQuery := []
  final_sparql : Option BrickSparqlQuery := none
  max_iterations : Nat := 15

/-- `AgentState.is_duplicate_action` (brick_agent.py, lines 154-156):
membership of the candidate in `actions[-5:]` under `BrickAction.__eq__`. -/
def is_duplicate_action (s : AgentState) (a : BrickAction) : Bool :=
  (s.actions.drop (s.actions.length - 5)).any (fun b => actionEq b a)

/-- `AgentState.should_stop` (brick_agent.py, lines 158-164). -/
def should_stop (s : AgentState) : Bool :=
  decide (s.max_iterations ≤ s.actions.length) ||
  (match s.actions.getLast? with
   | some a => a.action_name == "stop"
   | none => false)

/-- The external collaborators of the agent, as explicit functions.  The three
lookup helpers and the raw graph query can raise in Python (modelled as
`Except.error` carrying `str(e)`); `render_rows` stands for the pandas
`DataFrame.to_string` rendering used by `results_as_table`. -/
structure Collab where
  search_brick : String → Except String (List SearchHit)
  get_brick_entity : String → Except String EntityInfo
  get_property_examples : String → Except String (List (String × String × String))
  graph_query : String → Except String (List RawRow)
  render_rows : List ResultRow → String

/-- `BrickAgent.execute_action` (brick_agent.py, lines 437-493): dispatch on
the action kind, fill the observation, and return the (action, query) pair.
A failure raised by a collaborator is caught by the surrounding
`try`/`except` and becomes the observation `"Error executing action: <e>"`,
leaving `observation_raw` as it was. -/
def execute_action (c : Collab) (a : BrickAction) : BrickAction × Option BrickSparqlQuery :=
  if a.action_name == "search_brick" then
    match c.search_brick a.action_argument with
    | .ok results =>
      ({ a with observation_raw := some (.search results),
                observation := some (format_search_results results) }, none)
    | .error e => ({ a with observation := some ("Error executing action: " ++ e) }, none)
  else if a.action_name == "get_brick_entity" then
    match c.get_brick_entity a.action_argument with
    | .ok info =>
      ({ a with observation_raw := some (.entity info),
                observation := some (format_entity_info info) }, none)
    | .error e => ({ a with observation := some ("Error executing action: " ++ e) }, none)
  else if a.action_name == "get_property_examples" then
    match c.get_property_examples a.action_argument with
    | .ok examples =>
      ({ a with observation_raw := some (.examples examples),
                observation := some
                  (if examples.isEmpty then "No examples found"
                   else joinNL (examples.map
                     (fun t => t.1 ++ " -- " ++ t.2.1 ++ " --> " ++ t.2.2))) }, none)
    | .error e => ({ a with observation := some ("Error executing action: " ++ e) }, none)
  else if a.action_name == "execute_sparql" then
    let corrected := validate_and_fix_sparql a.action_argument
    let res := execute_sparql c.graph_query corrected
    let sq : BrickSparqlQuery :=
      { sparql := corrected, execution_result := some res.1, execution_status := some res.2 }
    let obs :=
      if sq.has_results then sq.results_as_table c.render_rows
      else "Query returned no results. Status: " ++ res.2.value
    ({ a with observation_raw := some (.sparql sq), observation := some obs }, some sq)
  else if a.action_name == "stop" then
    ({ a with observation := some "Stopping execution" }, none)
  else
    ({ a with observation := some ("Unknown action: " ++ a.action_name) }, none)

/-- The forced stop action of `BrickAgent.run` (brick_agent.py, lines 523-527). -/
def stopAction : BrickAction :=
  { thought := "Detected duplicate action, stopping", action_name := "stop",
    action_argument := "" }

/-- One iteration of the `while` loop of `BrickAgent.run` (brick_agent.py,
lines 513-537): ask the controller, replace a duplicate by the forced stop,
execute, append the action and any produced query. -/
def runStep (ctrl : AgentState → BrickAction) (c : Collab) (s : AgentState) : AgentState :=
  let candidate := ctrl s
  let candidate := if is_duplicate_action s candidate then stopAction else candidate
  let res := execute_action c candidate
  { s with actions := s.actions ++ [res.1],
           generated_sparqls := s.generated_sparqls ++ res.2.toList }

/-- The `while not state.should_stop()` loop, with explicit fuel.  Each
iteration appends exactly one action, and `should_stop` fires as soon as
`max_iterations ≤ len(actions)`, so any fuel of at least
`max_iterations - len(actions)` computes the loop's true fixpoint
(`loopFuel_stable` below makes this precise). -/
def loopFuel (ctrl : AgentState → BrickAction) (c : Collab) :
    Nat → AgentState → AgentState
  | 0, s => s
  | fuel + 1, s =>
    if should_stop s then s else loopFuel ctrl c fuel (runStep ctrl c s)

/-- `BrickAgent.run` (brick_agent.py, lines 495-556): fresh state with the
default budget of 15, the loop, then `final_sparql := generated_sparqls[-1]`
if any query was produced. -/
def run (ctrl : AgentState → BrickAction) (c : Collab) (question : String) :
    AgentState × Option BrickSparqlQuery :=
  let s0 : AgentState := { question := question }
  let s1 := loopFuel ctrl c s0.max_iterations s0
  let s2 := { s1 with final_sparql := s1.generated_sparqls.getLast? }
  (s2, s2.final_sparql)

/-! ### Concrete fixtures used by witness theorems -/

/-- Collaborators that always succeed with empty payloads. -/
def okCollab : Collab :=
  { search_brick := fun _ => .ok []
    get_brick_entity := fun _ => .ok { entity := "", types := [], properties := [] }
    get_property_examples := fun _ => .ok []
    graph_query := fun _ => .ok []
    render_rows := fun _ => "" }

/-- Collaborators that always raise with message `"boom"`. -/
def failCollab : Collab :=
  { search_brick := fun _ => .error "boom"
    get_brick_entity := fun _ => .error "boom"
    get_property_examples := fun _ => .error "boom"
    graph_query := fun _ => .error "boom"
    render_rows := fun _ => "" }

/-- A search action whose argument is `n` copies of `'x'`. -/
def searchActionAt (n : Nat) : BrickAction :=
  { thought := "t", action_name := "search_brick",
    action_argument := ⟨List.replicate n 'x'⟩ }

/-- A decision-maker that emits a fresh search argument at every step, so the
duplicate check never fires and the loop runs to its step budget. -/
def distinctController (s : AgentState) : BrickAction :=
  searchActionAt s.actions.length

/-- A graph store that yields one row binding `?v` to `"1"`. -/
def oneRowGq : String → Except String (List RawRow) :=
  fun _ => .ok [[("v", some "1")]]

/-- The state of a constant-decision-maker session after its first
iteration: the executed action has been appended, along with any query it
produced. -/
def constStepState (c : Collab) (a : BrickAction) (q : String) : AgentState :=
  { question := q, actions := [(execute_action c a).1],
    generated_sparqls := ((execute_action c a).2).toList }

/-- The executed duplicate-forced stop action. -/
def stopExecuted : BrickAction :=
  { stopAction with observation := some "Stopping execution" }

/-- The state of a constant-decision-maker session after its second
iteration: the duplicate check replaced the candidate by the forced stop. -/
def constStopState (c : Collab) (a : BrickAction) (q : String) : AgentState :=
  { question := q, actions := [(execute_action c a).1, stopExecuted],
    generated_sparqls := ((execute_action c a).2).toList }

/-- The case-insensitive-substring property, written spec-side: `q` has a
segment whose ASCII uppercasing is the needle `n`. -/
def containsCISpec (n : List Char) (q : String) : Prop :=
  ∃ a m b, q.data = a ++ m ++ b ∧ m.map pyUpperChar = n

/-- Spec-side description of the extractor's output: `r` (the text after the
opening parenthesis) splits as the content `c`, the matching `')'`, and the
rest, where `c` has equally many openers and closers and no prefix of `c`
closes more than it opens (so the `')'` after `c` is the first one that
matches the opening parenthesis). -/
def balancedDecomp (r c : List Char) : Prop :=
  ∃ rest, r = c ++ ')' :: rest ∧ c.count ')' = c.count '(' ∧
    ∀ p t, c = p ++ t → p.count ')' ≤ p.count '('

/-! ## Helper lemmas -/

theorem searchP3_append_right {r : List Char} (x : List Char)
    (h : searchP3 r = true) : searchP3 (x ++ r) = true := by
  induction x with
  | nil => rw [List.nil_append]; exact h
  | cons c x ih =>
    rw [List.cons_append]
    have hunf : searchP3 (c :: (x ++ r)) =
        (matchAtP3 (c :: (x ++ r)) || searchP3 (x ++ r)) := rfl
    rw [hunf, ih, Bool.or_true]

theorem searchP3_appendLimit10 (t : List Char) : searchP3 (appendLimit10 t) = true := by
  unfold appendLimit10
  by_cases h3 : searchP3 t = true
  · simp [h3]
  · simp only [Bool.not_eq_true] at h3
    simp only [h3, Bool.not_false, if_pos]
    exact searchP3_append_right t (by decide)

theorem searchP3_fixSparql (l : List Char) : searchP3 (fixSparqlData l) = true :=
  searchP3_appendLimit10 _

theorem fixSparql_fixpoint (l : List Char) (h0 : stripData l = l)
    (h1 : reSubP0 l = l) (h2 : reSubP1 l = l) (h3 : searchP3 l = true) :
    fixSparqlData l = l := by
  unfold fixSparqlData appendLimit1 appendLimit10
  rw [h0, h1, h2]
  simp [h3]

theorem leadsWith_iff (n l : List Char) :
    leadsWith n l = true ↔ ∃ t, l = n ++ t := by
  induction n generalizing l with
  | nil => exact ⟨fun _ => ⟨l, rfl⟩, fun _ => rfl⟩
  | cons a n' ih =>
    cases l with
    | nil =>
      simp only [leadsWith, List.cons_append]
      constructor
      · intro h; exact absurd h (by simp)
      · rintro ⟨t, ht⟩; exact absurd ht (by simp)
    | cons b l' =>
      simp only [leadsWith, Bool.and_eq_true, beq_iff_eq, ih, List.cons_append]
      constructor
      · rintro ⟨rfl, t, rfl⟩; exact ⟨t, rfl⟩
      · rintro ⟨t, ht⟩
        injection ht with hb hl
        exact ⟨hb.symm, t, hl⟩

theorem containsSub_iff (n h : List Char) :
    containsSub n h = true ↔ ∃ a b, h = a ++ n ++ b := by
  induction h with
  | nil =>
    simp only [containsSub, List.isEmpty_iff]
    constructor
    · rintro rfl; exact ⟨[], [], rfl⟩
    · rintro ⟨a, b, hab⟩
      rcases List.append_eq_nil.mp hab.symm with ⟨h1, h2⟩
      exact (List.append_eq_nil.mp h1).2
  | cons c h' ih =>
    simp only [containsSub, Bool.or_eq_true, leadsWith_iff, ih]
    constructor
    · rintro (⟨t, ht⟩ | ⟨a, b, hab⟩)
      · exact ⟨[], t, by simpa using ht⟩
      · exact ⟨c :: a, b, by simp [hab]⟩
    · rintro ⟨a, b, hab⟩
      cases a with
      | nil => exact Or.inl ⟨b, by rw [List.nil_append] at hab; exact hab⟩
      | cons x a' =>
        injection hab with hx hrest
        exact Or.inr ⟨a', b, hrest⟩

/-! ## Claim C1: idempotence of the query-repair pass -/

/-- Claim C1 (amended): the repair pass is idempotent at every input whose
repaired text is left unchanged by the whitespace strip, the
PREFIX-angle-bracket rewrite and the ordering-parenthesis rewrite; the
LIMIT-appending fixes 2 and 3 never fire a second time because the repaired
text always contains a `LIMIT <digits>` clause. -/
theorem repair_idempotent_on_rewrite_fixpoints (s : String)
    (hstrip : pyStrip (validate_and_fix_sparql s) = validate_and_fix_sparql s)
    (hfix0 : fix0Str (validate_and_fix_sparql s) = validate_and_fix_sparql s)
    (hfix1 : fix1Str (validate_and_fix_sparql s) = validate_and_fix_sparql s) :
    validate_and_fix_sparql (validate_and_fix_sparql s) = validate_and_fix_sparql s := by
  have h0 : stripData (validate_and_fix_sparql s).data = (validate_and_fix_sparql s).data :=
    congrArg String.data hstrip
  have h1 : reSubP0 (validate_and_fix_sparql s).data = (validate_and_fix_sparql s).data :=
    congrArg String.data hfix0
  have h2 : reSubP1 (validate_and_fix_sparql s).data = (validate_and_fix_sparql s).data :=
    congrArg String.data hfix1
  have h3 : searchP3 (validate_and_fix_sparql s).data = true := searchP3_fixSparql s.data
  show (⟨fixSparqlData (validate_and_fix_sparql s).data⟩ : String) = validate_and_fix_sparql s
  rw [fixSparql_fixpoint _ h0 h1 h2 h3]

/-- Witness for C1's amended theorem at a concrete repaired query. -/
theorem repair_idempotent_witness :
    validate_and_fix_sparql (validate_and_fix_sparql "SELECT ?v WHERE \x7b ?s ?p ?v \x7d") =
      validate_and_fix_sparql "SELECT ?v WHERE \x7b ?s ?p ?v \x7d" :=
  repair_idempotent_on_rewrite_fixpoints _ (by decide) (by decide) (by decide)

/-- Counterexample to C1 as stated: on the empty query the repair pass
appends `' LIMIT 10'` to the already-stripped text, so the second
application's strip removes the leading space and the results differ. -/
theorem repair_not_idempotent_counterexample :
    validate_and_fix_sparql (validate_and_fix_sparql "") ≠ validate_and_fix_sparql "" ∧
    validate_and_fix_sparql "" = " LIMIT 10" ∧
    validate_and_fix_sparql " LIMIT 10" = "LIMIT 10" := by
  refine ⟨by decide, by decide, by decide⟩

/-! ## Claim C7: the LIMIT-appending behaviour of the repair pass -/

/-- Claim C7 (amended): provided the input is unchanged by the whitespace
strip, the PREFIX-angle-bracket rewrite and the ordering-parenthesis
rewrite, the repair pass appends exactly `' LIMIT 1'` when the text has a
descending ordering clause and no LIMIT clause, appends exactly
`' LIMIT 10'` when it has neither, and appends nothing when a LIMIT clause
is already present. -/
theorem repair_limit_bounds (s : String)
    (hstrip : pyStrip s = s) (hfix0 : fix0Str s = s) (hfix1 : fix1Str s = s) :
    (hasOrderByDesc s = true → hasLimitClause s = false →
      validate_and_fix_sparql s = s ++ " LIMIT 1") ∧
    (hasOrderByDesc s = false → hasLimitClause s = false →
      validate_and_fix_sparql s = s ++ " LIMIT 10") ∧
    (hasLimitClause s = true → validate_and_fix_sparql s = s) := by
  have h0 : stripData s.data = s.data := congrArg String.data hstrip
  have h1 : reSubP0 s.data = s.data := congrArg String.data hfix0
  have h2 : reSubP1 s.data = s.data := congrArg String.data hfix1
  refine ⟨?_, ?_, ?_⟩
  · intro hd hl
    unfold hasOrderByDesc at hd
    unfold hasLimitClause at hl
    have hmono : searchP3 (s.data ++ " LIMIT 1".data) = true :=
      searchP3_append_right s.data (by decide)
    show (⟨fixSparqlData s.data⟩ : String) = s ++ " LIMIT 1"
    unfold fixSparqlData appendLimit1 appendLimit10
    rw [h0, h1, h2, hd, hl]
    simp only [Bool.not_false, Bool.and_true, if_true, hmono, Bool.not_true,
      Bool.false_eq_true, if_false]
    rfl
  · intro hd hl
    unfold hasOrderByDesc at hd
    unfold hasLimitClause at hl
    show (⟨fixSparqlData s.data⟩ : String) = s ++ " LIMIT 10"
    unfold fixSparqlData appendLimit1 appendLimit10
    rw [h0, h1, h2, hd, hl]
    simp only [Bool.not_false, Bool.false_and, Bool.false_eq_true, if_false, if_true]
    simp only [hl, Bool.not_false, if_pos]
    rfl
  · intro hl
    unfold hasLimitClause at hl
    show (⟨fixSparqlData s.data⟩ : String) = s
    unfold fixSparqlData appendLimit1 appendLimit10
    rw [h0, h1, h2, hl]
    simp only [Bool.not_true, Bool.and_false, Bool.false_eq_true, if_false]
    simp only [hl, Bool.not_true, Bool.false_eq_true, if_false]

/-- Witness for C7's amended theorem at the two concrete examples of the
specification. -/
theorem repair_limit_bounds_witness :
    validate_and_fix_sparql "SELECT ?v WHERE \x7b ?s ?p ?v \x7d ORDER BY DESC(?v)" =
      "SELECT ?v WHERE \x7b ?s ?p ?v \x7d ORDER BY DESC(?v)" ++ " LIMIT 1" ∧
    validate_and_fix_sparql "SELECT ?v WHERE \x7b ?s ?p ?v \x7d" =
      "SELECT ?v WHERE \x7b ?s ?p ?v \x7d" ++ " LIMIT 10" :=
  ⟨(repair_limit_bounds _ (by decide) (by decide) (by decide)).1 (by decide) (by decide),
   (repair_limit_bounds _ (by decide) (by decide) (by decide)).2.1 (by decide) (by decide)⟩

/-- Counterexample to C7 as stated: `"ORDER BY DESC(?abc)"` has a descending
ordering clause and no LIMIT clause, yet the repaired text is not the input
with `' LIMIT 1'` appended — the ordering-parenthesis rewrite first mangles
the variable (the greedy `\w+` backtracks against the negative lookahead). -/
theorem repair_limit_counterexample :
    hasOrderByDesc "ORDER BY DESC(?abc)" = true ∧
    hasLimitClause "ORDER BY DESC(?abc)" = false ∧
    validate_and_fix_sparql "ORDER BY DESC(?abc)" ≠ "ORDER BY DESC(?abc)" ++ " LIMIT 1" ∧
    validate_and_fix_sparql "ORDER BY DESC(?abc)" = "ORDER BY DESC(?ab)c) LIMIT 1" := by
  refine ⟨by decide, by decide, by decide, by decide⟩

/-! ## Claim C3: duplicate detection over the 5-action sliding window -/

/-- Claim C3 (confirmed): `is_duplicate_action` flags a candidate exactly
when one of the last 5 actions of the history agrees with it on
`action_name` and `action_argument`; rationale and observation are ignored,
and an equal action more than 5 steps back does not count. -/
theorem is_duplicate_action_iff (s : AgentState) (a : BrickAction) :
    is_duplicate_action s a = true ↔
      ∃ i, ∃ h : i < s.actions.length,
        s.actions.length ≤ i + 5 ∧
        (s.actions.get ⟨i, h⟩).action_name = a.action_name ∧
        (s.actions.get ⟨i, h⟩).action_argument = a.action_argument := by
  unfold is_duplicate_action
  rw [List.any_eq_true]
  constructor
  · rintro ⟨b, hb, hpred⟩
    rw [List.mem_iff_getElem] at hb
    obtain ⟨j, hj, hget⟩ := hb
    rw [List.length_drop] at hj
    rw [List.getElem_drop] at hget
    have hfull : s.actions.length - 5 + j < s.actions.length := by omega
    have hpair : b.action_name = a.action_name ∧ b.action_argument = a.action_argument := by
      unfold actionEq at hpred
      simpa using hpred
    refine ⟨s.actions.length - 5 + j, hfull, by omega, ?_, ?_⟩
    · rw [List.get_eq_getElem, hget]; exact hpair.1
    · rw [List.get_eq_getElem, hget]; exact hpair.2
  · rintro ⟨i, h, hwin, hname, harg⟩
    refine ⟨s.actions.get ⟨i, h⟩, ?_, ?_⟩
    · rw [List.mem_iff_getElem]
      have hj : i - (s.actions.length - 5) < (s.actions.drop (s.actions.length - 5)).length := by
        rw [List.length_drop]; omega
      refine ⟨i - (s.actions.length - 5), hj, ?_⟩
      rw [List.getElem_drop, List.get_eq_getElem]
      exact getElem_congr
        (show s.actions.length - 5 + (i - (s.actions.length - 5)) = i by omega)
    · unfold actionEq
      simp only [List.get_eq_getElem, Fin.val_mk] at hname harg
      simp [hname, harg]

/-- Witness for C3 at a six-action history: the candidate equals the oldest
entry only, which lies outside the 5-window, so it is not flagged; shifting
to the second entry, it is flagged. -/
theorem is_duplicate_action_iff_witness :
    is_duplicate_action
      { question := "q",
        actions := [searchActionAt 0, searchActionAt 1, searchActionAt 2,
          searchActionAt 3, searchActionAt 4, searchActionAt 5] }
      (searchActionAt 1) = true ∧
    is_duplicate_action
      { question := "q",
        actions := [searchActionAt 0, searchActionAt 1, searchActionAt 2,
          searchActionAt 3, searchActionAt 4, searchActionAt 5] }
      (searchActionAt 0) = false := by
  constructor
  · exact (is_duplicate_action_iff _ _).mpr ⟨1, by decide, by decide, by decide, by decide⟩
  · decide

/-! ## Claim C5: execution status versus returned rows -/

/-- Claim C5 (confirmed): `execute_sparql` reports `SUCCESS` exactly when the
converted row list is non-empty; a query that executes without raising
(`Except.ok`) but returns zero rows gets specifically `EMPTY_RESULT`, never
`SUCCESS`; and every non-`SUCCESS` status comes with an empty row list. -/
theorem execute_sparql_success_iff (gq : String → Except String (List RawRow))
    (q : String) :
    ((execute_sparql gq q).2 = .SUCCESS ↔ (execute_sparql gq q).1 ≠ []) ∧
    ((execute_sparql gq q).2 ≠ .SUCCESS → (execute_sparql gq q).1 = []) ∧
    (∀ raw, gq (sentQuery q) = .ok raw → (execute_sparql gq q).1 = [] →
      (execute_sparql gq q).2 = .EMPTY_RESULT) := by
  have hmain : (execute_sparql gq q).2 = .SUCCESS ↔ (execute_sparql gq q).1 ≠ [] := by
    unfold execute_sparql
    cases hgq : gq (sentQuery q) with
    | ok raw =>
      simp only []
      by_cases he : (convertRows raw).isEmpty = true
      · have hnil : convertRows raw = [] := List.isEmpty_iff.mp he
        simp [he, hnil]
      · have hne : convertRows raw ≠ [] := by
          intro hh
          exact he (by rw [hh]; rfl)
        simp [he, hne]
    | error e =>
      simp only []
      unfold classifyError
      constructor
      · intro h
        exfalso
        split at h
        · exact absurd h (by decide)
        · split at h
          · exact absurd h (by decide)
          · exact absurd h (by decide)
      · intro h
        simp at h
  refine ⟨hmain, fun h => ?_, fun raw hok hnil => ?_⟩
  · by_contra hne
    exact h (hmain.mpr hne)
  · have h1 : (execute_sparql gq q).1 = convertRows raw := by
      unfold execute_sparql
      rw [hok]
    rw [h1] at hnil
    unfold execute_sparql
    rw [hok]
    simp [hnil]

/-- Witness for C5: a one-row graph result yields `SUCCESS`; a raising graph
yields an empty row list; and a graph that succeeds with zero rows yields
`EMPTY_RESULT`. -/
theorem execute_sparql_success_iff_witness :
    (execute_sparql oneRowGq "SELECT ?v").2 = .SUCCESS ∧
    (execute_sparql (fun _ => .error "syntax error at token") "SELECT ?v").1 = [] ∧
    (execute_sparql (fun _ => .ok []) "SELECT ?v").2 = .EMPTY_RESULT :=
  ⟨(execute_sparql_success_iff oneRowGq "SELECT ?v").1.mpr (by decide),
   (execute_sparql_success_iff _ "SELECT ?v").2.1 (by decide),
   (execute_sparql_success_iff (fun _ => .ok []) "SELECT ?v").2.2 [] rfl (by decide)⟩

/-! ## Claim C9: case-insensitive PREFIX detection and prefix injection -/

theorem containsSub_append_left {n x : List Char} (r : List Char)
    (h : containsSub n x = true) : containsSub n (x ++ r) = true := by
  rw [containsSub_iff] at h ⊢
  obtain ⟨a, b, rfl⟩ := h
  exact ⟨a, b ++ r, by simp⟩

theorem containsCISpec_iff (q : String) :
    containsSub "PREFIX".data (pyUpperData q.data) = true ↔
      containsCISpec "PREFIX".data q := by
  rw [containsSub_iff]
  unfold containsCISpec pyUpperData
  constructor
  · rintro ⟨a, b, hab⟩
    rw [List.append_assoc] at hab
    rcases List.map_eq_append_iff.mp hab with ⟨l1, l2, hq, hl1, hl2⟩
    rcases List.map_eq_append_iff.mp hl2 with ⟨m, l3, hq2, hm, hl3⟩
    exact ⟨l1, m, l3, by rw [hq, hq2, List.append_assoc], hm⟩
  · rintro ⟨a, m, b, hq, hm⟩
    refine ⟨a.map pyUpperChar, b.map pyUpperChar, ?_⟩
    rw [hq]
    simp [hm]

theorem sentQuery_idem (q : String) : sentQuery (sentQuery q) = sentQuery q := by
  by_cases h : containsSub "PREFIX".data (pyUpperData q.data) = true
  · have h1 : sentQuery q = q := by unfold sentQuery; rw [if_pos h]
    rw [h1]
    exact h1
  · have h1 : sentQuery q = BRICK_PREFIXES ++ q := by unfold sentQuery; rw [if_neg h]
    have hcond : containsSub "PREFIX".data (pyUpperData (BRICK_PREFIXES ++ q).data) = true := by
      have hdata : (BRICK_PREFIXES ++ q).data = BRICK_PREFIXES.data ++ q.data := rfl
      rw [hdata]
      unfold pyUpperData
      rw [List.map_append]
      exact containsSub_append_left _ (by decide)
    rw [h1]
    unfold sentQuery
    rw [if_pos hcond]

/-- Claim C9 (confirmed): `execute_sparql` sends the query text unchanged to
the graph store exactly when the text contains a segment that uppercases to
`"PREFIX"`; otherwise it sends `BRICK_PREFIXES` prepended to it.  In
particular re-submitting the sent text changes nothing. -/
theorem execute_sparql_prefix_injection (q : String) :
    (containsCISpec "PREFIX".data q → sentQuery q = q) ∧
    (¬containsCISpec "PREFIX".data q → sentQuery q = BRICK_PREFIXES ++ q) ∧
    (∀ gq : String → Except String (List RawRow),
      execute_sparql gq (sentQuery q) = execute_sparql gq q) := by
  refine ⟨?_, ?_, ?_⟩
  · intro h
    unfold sentQuery
    rw [if_pos ((containsCISpec_iff q).mpr h)]
  · intro h
    unfold sentQuery
    rw [if_neg (fun hb => h ((containsCISpec_iff q).mp hb))]
  · intro gq
    unfold execute_sparql
    rw [sentQuery_idem]

/-- Witness for C9: a query declaring its own (lower-case) prefix is sent
unchanged; a query with no prefix declaration gets the standard block. -/
theorem execute_sparql_prefix_injection_witness :
    sentQuery "prefix ex: <urn:a> SELECT ?v WHERE \x7b ?s ex:p ?v \x7d" =
      "prefix ex: <urn:a> SELECT ?v WHERE \x7b ?s ex:p ?v \x7d" ∧
    sentQuery "SELECT ?v" = BRICK_PREFIXES ++ "SELECT ?v" :=
  ⟨(execute_sparql_prefix_injection _).1
      ⟨[], "prefix".data, " ex: <urn:a> SELECT ?v WHERE \x7b ?s ex:p ?v \x7d".data,
        by decide, by decide⟩,
   (execute_sparql_prefix_injection _).2.1
      (fun h => absurd ((containsCISpec_iff _).mpr h) (by decide))⟩

/-! ## Claim C10: rendering an action to text -/

/-- Claim C10 (confirmed): `to_string` always renders the Thought line and
the `Action: name(argument)` line; the Observation line appears exactly when
`include_observation` is true and the observation is present and non-empty
(Python truthiness), and is omitted entirely otherwise. -/
theorem to_string_lines (a : BrickAction) (incl : Bool) :
    ((incl = true ∧ ∃ s, a.observation = some s ∧ s ≠ "") →
      a.to_string incl =
        "Thought: " ++ a.thought ++ "\n" ++ "Action: " ++ a.action_name ++ "(" ++
          a.action_argument ++ ")\n" ++ "Observation: " ++ a.observation.getD "" ++ "\n") ∧
    (¬(incl = true ∧ ∃ s, a.observation = some s ∧ s ≠ "") →
      a.to_string incl =
        "Thought: " ++ a.thought ++ "\n" ++ "Action: " ++ a.action_name ++ "(" ++
          a.action_argument ++ ")\n") := by
  constructor
  · rintro ⟨rfl, s, hs, hne⟩
    unfold BrickAction.to_string pyTruthyStr
    rw [hs]
    have hse : s.isEmpty = false := by
      rcases hb : s.isEmpty with _ | _
      · rfl
      · exact absurd ((String.isEmpty_iff s).mp hb) hne
    simp [hse]
  · intro hnot
    have hcond : (incl && pyTruthyStr a.observation) = false := by
      rcases hobs : a.observation with _ | s
      · simp [pyTruthyStr]
      · rcases Bool.eq_false_or_eq_true incl with hi | hi
        · have hse : s = "" := by
            by_contra hne
            exact hnot ⟨hi, s, hobs, hne⟩
          subst hse
          rw [hi]
          rfl
        · simp [hi]
    unfold BrickAction.to_string
    rw [hcond]
    simp

/-- Witness for C10: with `include_observation = true`, an action with an
empty-string observation renders without an Observation line, and one with a
real observation renders with it. -/
theorem to_string_lines_witness :
    BrickAction.to_string
      { thought := "T", action_name := "stop", action_argument := "",
        observation := some "" } true = "Thought: T\n" ++ "Action: stop()\n" ∧
    BrickAction.to_string
      { thought := "T", action_name := "search_brick", action_argument := "x",
        observation := some "hit" } true =
      "Thought: T\n" ++ "Action: search_brick(x)\n" ++ "Observation: hit\n" := by
  constructor
  · have h := (to_string_lines
      { thought := "T", action_name := "stop", action_argument := "",
        observation := some "" } true).2 (by simp)
    simpa using h
  · have h := (to_string_lines
      { thought := "T", action_name := "search_brick", action_argument := "x",
        observation := some "hit" } true).1 ⟨rfl, "hit", rfl, by decide⟩
    simpa using h

/-! ## Claim C4: the executor converts collaborator failures into observations -/

/-- Claim C4 (confirmed): whenever the collaborator dispatched for the
action's kind raises, `execute_action` still returns an (action, query)
pair: the action carries the observation
`"Error executing action: <message>"`, its `observation_raw` payload is left
as it was (unset for a freshly created action), and no query is returned. -/
theorem execute_action_collab_error (c : Collab) (a : BrickAction) (e : String)
    (h : (a.action_name = "search_brick" ∧ c.search_brick a.action_argument = .error e) ∨
         (a.action_name = "get_brick_entity" ∧ c.get_brick_entity a.action_argument = .error e) ∨
         (a.action_name = "get_property_examples" ∧
           c.get_property_examples a.action_argument = .error e)) :
    execute_action c a =
      ({ a with observation := some ("Error executing action: " ++ e) }, none) := by
  rcases h with ⟨hn, hc⟩ | ⟨hn, hc⟩ | ⟨hn, hc⟩ <;>
    · unfold execute_action
      rw [hn]
      simp [hc]

/-- Witness for C4: a raising search collaborator produces the error
observation, leaves the payload unset and still returns a pair. -/
theorem execute_action_collab_error_witness :
    execute_action failCollab
      { thought := "t", action_name := "search_brick", action_argument := "z" } =
      ({ thought := "t", action_name := "search_brick", action_argument := "z",
         observation := some "Error executing action: boom",
         observation_raw := none }, none) :=
  execute_action_collab_error failCollab
    { thought := "t", action_name := "search_brick", action_argument := "z" } "boom"
    (Or.inl ⟨rfl, rfl⟩)

/-! ## Claims C2 and C6: the driver loop -/

theorem execute_action_preserves (c : Collab) (a : BrickAction) :
    ((execute_action c a).1).action_name = a.action_name ∧
    ((execute_action c a).1).action_argument = a.action_argument ∧
    ((execute_action c a).1).thought = a.thought := by
  unfold execute_action
  repeat' split
  all_goals exact ⟨rfl, rfl, rfl⟩

theorem runStep_max (ctrl : AgentState → BrickAction) (c : Collab) (s : AgentState) :
    (runStep ctrl c s).max_iterations = s.max_iterations := rfl

theorem runStep_length (ctrl : AgentState → BrickAction) (c : Collab) (s : AgentState) :
    (runStep ctrl c s).actions.length = s.actions.length + 1 := by
  unfold runStep
  simp

theorem should_stop_false_lt {s : AgentState} (h : should_stop s = false) :
    s.actions.length < s.max_iterations := by
  unfold should_stop at h
  rcases Bool.or_eq_false_iff.mp h with ⟨h1, _⟩
  have := of_decide_eq_false h1
  omega

theorem loopFuel_of_stop (ctrl : AgentState → BrickAction) (c : Collab)
    {s : AgentState} (h : should_stop s = true) (k : Nat) :
    loopFuel ctrl c k s = s := by
  cases k with
  | zero => rfl
  | succ k => simp [loopFuel, h]

theorem loopFuel_max (ctrl : AgentState → BrickAction) (c : Collab) :
    ∀ (n : Nat) (s : AgentState),
      (loopFuel ctrl c n s).max_iterations = s.max_iterations := by
  intro n
  induction n with
  | zero => intro s; rfl
  | succ n ih =>
    intro s
    by_cases hs : should_stop s = true
    · simp [loopFuel, hs]
    · rw [Bool.not_eq_true] at hs
      simp only [loopFuel, hs, Bool.false_eq_true, if_false]
      rw [ih (runStep ctrl c s), runStep_max]

theorem loopFuel_length_le (ctrl : AgentState → BrickAction) (c : Collab) :
    ∀ (n : Nat) (s : AgentState), s.actions.length ≤ s.max_iterations →
      (loopFuel ctrl c n s).actions.length ≤ s.max_iterations := by
  intro n
  induction n with
  | zero => intro s h; exact h
  | succ n ih =>
    intro s h
    by_cases hs : should_stop s = true
    · simp only [loopFuel, hs, if_true]
      exact h
    · rw [Bool.not_eq_true] at hs
      simp only [loopFuel, hs, Bool.false_eq_true, if_false]
      have hlt := should_stop_false_lt hs
      have hnext : (runStep ctrl c s).actions.length ≤ (runStep ctrl c s).max_iterations := by
        rw [runStep_length, runStep_max]
        omega
      have := ih (runStep ctrl c s) hnext
      rw [runStep_max] at this
      exact this

/-- Fuel adequacy: once the remaining fuel covers the distance to the step
budget, adding more fuel never changes the loop's result — the fueled
recursion computes the `while` loop's true fixpoint. -/
theorem loopFuel_add (ctrl : AgentState → BrickAction) (c : Collab) :
    ∀ (n k : Nat) (s : AgentState),
      s.max_iterations ≤ s.actions.length + n →
      loopFuel ctrl c (n + k) s = loopFuel ctrl c n s := by
  intro n
  induction n with
  | zero =>
    intro k s h
    rw [Nat.zero_add]
    have hstop : should_stop s = true := by
      unfold should_stop
      have : decide (s.max_iterations ≤ s.actions.length) = true := by
        simpa using h
      rw [this, Bool.true_or]
    rw [loopFuel_of_stop ctrl c hstop, loopFuel_of_stop ctrl c hstop]
  | succ n ih =>
    intro k s h
    rw [show n + 1 + k = (n + k) + 1 by omega]
    by_cases hs : should_stop s = true
    · simp [loopFuel, hs]
    · rw [Bool.not_eq_true] at hs
      simp only [loopFuel, hs, Bool.false_eq_true, if_false]
      exact ih k (runStep ctrl c s) (by rw [runStep_length, runStep_max]; omega)

/-- Claim C2 (confirmed): the loop keeps `len(actions) ≤ max_iterations` at
every step (any state within budget stays within budget for any remaining
fuel); a full `run` therefore ends with at most 15 actions; and a
decision-maker that always returns the same non-stop action terminates after
exactly two actions — the action itself and a duplicate-forced stop carrying
the thought `"Detected duplicate action, stopping"`. -/
theorem loop_budget_and_duplicate_stop :
    (∀ (ctrl : AgentState → BrickAction) (c : Collab) (n : Nat) (s : AgentState),
      s.actions.length ≤ s.max_iterations →
      (loopFuel ctrl c n s).actions.length ≤ s.max_iterations) ∧
    (∀ (ctrl : AgentState → BrickAction) (c : Collab) (q : String),
      ((run ctrl c q).1).actions.length ≤ 15) ∧
    (∀ (c : Collab) (q : String) (a : BrickAction), a.action_name ≠ "stop" →
      ((run (fun _ => a) c q).1).actions.map BrickAction.action_name =
        [a.action_name, "stop"] ∧
      (((run (fun _ => a) c q).1).actions.getLast?).map BrickAction.thought =
        some "Detected duplicate action, stopping") := by
  refine ⟨loopFuel_length_le, ?_, ?_⟩
  · intro ctrl c q
    exact loopFuel_length_le ctrl c 15 { question := q } (Nat.zero_le _)
  · intro c q a ha
    have hpres := execute_action_preserves c a
    have hstopexec : execute_action c stopAction = (stopExecuted, none) := rfl
    have hrun : ((run (fun _ => a) c q).1).actions =
        (loopFuel (fun _ => a) c 15 { question := q }).actions := rfl
    have h1 : loopFuel (fun _ => a) c 15 { question := q } =
        loopFuel (fun _ => a) c 14 (constStepState c a q) := rfl
    have hstop1 : should_stop (constStepState c a q) = false := by
      have hb : ((execute_action c a).1.action_name == "stop") = false := by
        rw [hpres.1]
        exact beq_false_of_ne ha
      simp [should_stop, constStepState, hb]
    have hdup1 : is_duplicate_action (constStepState c a q) a = true := by
      unfold is_duplicate_action actionEq constStepState
      simp [hpres.1, hpres.2.1]
    have hstep : runStep (fun _ => a) c (constStepState c a q) = constStopState c a q := by
      unfold runStep
      simp only [hdup1, if_true, hstopexec]
      unfold constStepState constStopState
      simp
    have h2 : loopFuel (fun _ => a) c 14 (constStepState c a q) = constStopState c a q := by
      have hfirst : loopFuel (fun _ => a) c 14 (constStepState c a q) =
          if (should_stop (constStepState c a q) = true)
          then constStepState c a q
          else loopFuel (fun _ => a) c 13
            (runStep (fun _ => a) c (constStepState c a q)) := rfl
      rw [hfirst, hstop1]
      simp only [Bool.false_eq_true, if_false]
      rw [hstep]
      exact loopFuel_of_stop (fun _ => a) c
        (show should_stop (constStopState c a q) = true from rfl) 13
    rw [hrun, h1, h2]
    unfold constStopState
    refine ⟨?_, ?_⟩
    · simp [hpres.1]
      rfl
    · rfl

/-- Witness for C2: the constant search decision-maker is stopped after two
actions by the duplicate check, and a fresh state stays within the budget. -/
theorem loop_budget_witness :
    ((run (fun _ => searchActionAt 3) okCollab "q").1).actions.map
      BrickAction.action_name = ["search_brick", "stop"] ∧
    (loopFuel distinctController okCollab 15 { question := "q" }).actions.length ≤ 15 :=
  ⟨(loop_budget_and_duplicate_stop.2.2 okCollab "q" (searchActionAt 3) (by decide)).1,
   loop_budget_and_duplicate_stop.1 distinctController okCollab 15
     { question := "q" } (by decide)⟩

/-- Claim C6 (confirmed): after the loop, the returned final query is the
last entry of `generated_sparqls`; when no query was ever produced it is
`none`, returned as an ordinary value. -/
theorem final_result_is_last_query (ctrl : AgentState → BrickAction) (c : Collab)
    (q : String) :
    (run ctrl c q).2 = ((run ctrl c q).1).generated_sparqls.getLast? ∧
    (((run ctrl c q).1).generated_sparqls = [] → (run ctrl c q).2 = none) := by
  have h : (run ctrl c q).2 = ((run ctrl c q).1).generated_sparqls.getLast? := rfl
  exact ⟨h, fun he => by rw [h, he]; rfl⟩

/-- Witness for C6: a session that runs its full 15-step budget without ever
executing a query returns `none` as its final result. -/
theorem final_result_is_last_query_witness :
    (run distinctController okCollab "q").2 = none ∧
    ((run distinctController okCollab "q").1).actions.length = 15 :=
  ⟨(final_result_is_last_query distinctController okCollab "q").2 (by decide),
   by decide⟩

/-! ## Claim C8: balanced-parenthesis extraction -/

theorem scanParens_some_iff (l : List Char) :
    ∀ (d : Nat) (c : List Char),
      scanParens l (d + 1) = some c ↔
        ∃ rest, l = c ++ ')' :: rest ∧
          c.count ')' = d + c.count '(' ∧
          ∀ p t, c = p ++ t → p.count ')' ≤ d + p.count '(' := by
  induction l with
  | nil =>
    intro d c
    constructor
    · intro h
      exact absurd h (by simp [scanParens])
    · rintro ⟨rest, hl, -, -⟩
      exact absurd hl (by simp)
  | cons x l' ih =>
    intro d c
    by_cases hx : x = ')'
    · subst hx
      cases d with
      | zero =>
        have hscan : scanParens (')' :: l') 1 = some [] := by simp [scanParens]
        rw [hscan]
        constructor
        · intro h
          injection h with h
          subst h
          refine ⟨l', rfl, by simp, ?_⟩
          intro p t hp
          have hpnil : p = [] := by
            cases p with
            | nil => rfl
            | cons a b => exact absurd hp (by simp)
          subst hpnil
          simp
        · rintro ⟨rest, hl, hcount, hpres⟩
          cases c with
          | nil => rfl
          | cons y c' =>
            rw [List.cons_append] at hl
            injection hl with h1 h2
            subst h1
            have := hpres [')'] c' rfl
            simp [List.count_cons_self] at this
      | succ d' =>
        have hscan : scanParens (')' :: l') (d' + 1 + 1) =
            (scanParens l' (d' + 1)).map (fun m => ')' :: m) := by
          simp [scanParens]
        rw [hscan, Option.map_eq_some']
        constructor
        · rintro ⟨c', hc', rfl⟩
          obtain ⟨rest, hl, hcount, hpres⟩ := (ih d' c').mp hc'
          refine ⟨rest, by rw [List.cons_append, hl], ?_, ?_⟩
          · rw [List.count_cons_self, List.count_cons_of_ne (by decide)]
            omega
          · intro p t hp
            cases p with
            | nil => simp
            | cons y p' =>
              rw [List.cons_append] at hp
              injection hp with h1 h2
              subst h1
              have := hpres p' t h2
              rw [List.count_cons_self, List.count_cons_of_ne (by decide)]
              omega
        · rintro ⟨rest, hl, hcount, hpres⟩
          cases c with
          | nil =>
            rw [List.nil_append] at hl
            simp at hcount
          | cons y c' =>
            rw [List.cons_append] at hl
            injection hl with h1 h2
            subst h1
            refine ⟨c', (ih d' c').mpr ⟨rest, h2, ?_, ?_⟩, rfl⟩
            · rw [List.count_cons_self, List.count_cons_of_ne (by decide)] at hcount
              omega
            · intro p t hp
              have := hpres (')' :: p) t (by rw [List.cons_append, hp])
              rw [List.count_cons_self, List.count_cons_of_ne (by decide)] at this
              omega
    · by_cases hx2 : x = '('
      · subst hx2
        have hscan : scanParens ('(' :: l') (d + 1) =
            (scanParens l' (d + 1 + 1)).map (fun m => '(' :: m) := by
          simp [scanParens]
        rw [hscan, Option.map_eq_some']
        constructor
        · rintro ⟨c', hc', rfl⟩
          obtain ⟨rest, hl, hcount, hpres⟩ := (ih (d + 1) c').mp hc'
          refine ⟨rest, by rw [List.cons_append, hl], ?_, ?_⟩
          · rw [List.count_cons_of_ne (by decide), List.count_cons_self]
            omega
          · intro p t hp
            cases p with
            | nil => simp
            | cons y p' =>
              rw [List.cons_append] at hp
              injection hp with h1 h2
              subst h1
              have := hpres p' t h2
              rw [List.count_cons_of_ne (by decide), List.count_cons_self]
              omega
        · rintro ⟨rest, hl, hcount, hpres⟩
          cases c with
          | nil =>
            rw [List.nil_append] at hl
            injection hl with h1 h2
            exact absurd h1 (by decide)
          | cons y c' =>
            rw [List.cons_append] at hl
            injection hl with h1 h2
            subst h1
            refine ⟨c', (ih (d + 1) c').mpr ⟨rest, h2, ?_, ?_⟩, rfl⟩
            · rw [List.count_cons_of_ne (by decide), List.count_cons_self] at hcount
              omega
            · intro p t hp
              have := hpres ('(' :: p) t (by rw [List.cons_append, hp])
              rw [List.count_cons_of_ne (by decide), List.count_cons_self] at this
              omega
      · have hscan : scanParens (x :: l') (d + 1) =
            (scanParens l' (d + 1)).map (fun m => x :: m) := by
          simp [scanParens, hx, hx2]
        rw [hscan, Option.map_eq_some']
        constructor
        · rintro ⟨c', hc', rfl⟩
          obtain ⟨rest, hl, hcount, hpres⟩ := (ih d c').mp hc'
          refine ⟨rest, by rw [List.cons_append, hl], ?_, ?_⟩
          · rw [List.count_cons_of_ne (Ne.symm hx), List.count_cons_of_ne (Ne.symm hx2)]
            omega
          · intro p t hp
            cases p with
            | nil => simp
            | cons y p' =>
              rw [List.cons_append] at hp
              injection hp with h1 h2
              subst h1
              have := hpres p' t h2
              rw [List.count_cons_of_ne (Ne.symm hx), List.count_cons_of_ne (Ne.symm hx2)]
              omega
        · rintro ⟨rest, hl, hcount, hpres⟩
          cases c with
          | nil =>
            rw [List.nil_append] at hl
            injection hl with h1 h2
            exact absurd h1 hx
          | cons y c' =>
            rw [List.cons_append] at hl
            injection hl with h1 h2
            subst h1
            refine ⟨c', (ih d c').mpr ⟨rest, h2, ?_, ?_⟩, rfl⟩
            · rw [List.count_cons_of_ne (Ne.symm hx), List.count_cons_of_ne (Ne.symm hx2)] at hcount
              omega
            · intro p t hp
              have := hpres (x :: p) t (by rw [List.cons_append, hp])
              rw [List.count_cons_of_ne (Ne.symm hx), List.count_cons_of_ne (Ne.symm hx2)] at this
              omega

theorem balancedDecomp_iff_scan (r c : List Char) :
    balancedDecomp r c ↔ scanParens r 1 = some c := by
  constructor
  · rintro ⟨rest, hl, hc, hp⟩
    exact (scanParens_some_iff r 0 c).mpr
      ⟨rest, hl, by omega, fun p t hpt => by have := hp p t hpt; omega⟩
  · intro h
    obtain ⟨rest, hl, hc, hp⟩ := (scanParens_some_iff r 0 c).mp h
    exact ⟨rest, hl, by omega, fun p t hpt => by have := hp p t hpt; omega⟩

/-- Claim C8 (confirmed): for text beginning with `'('`,
`_extract_balanced_parens` returns `some c` exactly when the text splits as
`'('`, the content `c`, the matching `')'` (the first closer at depth zero)
and a remainder — nested parentheses preserved, outer pair stripped — and
returns `none` exactly when no such split exists (unbalanced parentheses);
moreover the controller's parsing pipeline extracts the SPARQL argument of
the specification's example action text verbatim. -/
theorem extract_balanced_parens_spec :
    (∀ (t : String) (r : List Char), t.data = '(' :: r →
      ((∀ c : String, extract_balanced_parens t = some c ↔ balancedDecomp r c.data) ∧
       (extract_balanced_parens t = none ↔ ∀ c : List Char, ¬balancedDecomp r c))) ∧
    parse_action_argument "Action: execute_sparql(SELECT ?v WHERE \x7b FILTER(?v > 1) \x7d)" =
      some "SELECT ?v WHERE \x7b FILTER(?v > 1) \x7d" := by
  constructor
  · intro t r ht
    have hext : extract_balanced_parens t =
        (scanParens r 1).map (fun m => (⟨m⟩ : String)) := by
      unfold extract_balanced_parens
      rw [ht]
      rfl
    constructor
    · intro c
      rw [hext, Option.map_eq_some']
      constructor
      · rintro ⟨m, hm, hmk⟩
        have hdata : c.data = m := by rw [← hmk]
        rw [hdata]
        exact (balancedDecomp_iff_scan r m).mpr hm
      · intro h
        exact ⟨c.data, (balancedDecomp_iff_scan r c.data).mp h, rfl⟩
    · rw [hext]
      constructor
      · intro hn c hbd
        rw [(balancedDecomp_iff_scan r c).mp hbd] at hn
        exact absurd hn (by simp)
      · intro hall
        cases hs : scanParens r 1 with
        | none => rfl
        | some m => exact absurd ((balancedDecomp_iff_scan r m).mpr hs) (hall m)
  · decide

/-- Witness for C8 at a nested input: the extractor strips the outer pair
and the content satisfies the balanced-split description. -/
theorem extract_balanced_parens_spec_witness :
    extract_balanced_parens "(a(b)c)" = some "a(b)c" ∧
    balancedDecomp "a(b)c)".data "a(b)c".data :=
  ⟨by decide,
   ((extract_balanced_parens_spec.1 "(a(b)c)" "a(b)c)".data (by decide)).1 "a(b)c").mp
     (by decide)⟩

end BrickSpec
